import Mathlib

/-!
Verification of the scan-conversion core of `scripts/realtime_inference.py`.

The Python functions `scan_conversion_inverse`, `scan_interpolation_weights`,
`scan_convert`, `curvilinear_mask`, `preprocess_input` and the configuration
loading phase of `run_client` are shallowly embedded below.  Floating point
arithmetic is modelled by exact arithmetic (`ℝ` where transcendental functions
occur, `ℚ` elsewhere); external library calls (scipy's Delaunay triangulation,
OpenCV's ellipse/circle rasterizers) are modelled as abstract parameters whose
interface properties match the library contracts.
-/

/-- Scan conversion configuration, mirroring the yaml keys read by the source
(`angle_min_degrees`, `angle_max_degrees`, `radius_start_pixels`,
`radius_end_pixels`, `num_lines`, `num_samples_along_lines`,
`center_coordinate_pixel`, `curvilinear_image_size`). -/
structure ScanConversionConfig where
  angle_min_degrees : ℚ
  angle_max_degrees : ℚ
  radius_start_pixels : ℚ
  radius_end_pixels : ℚ
  num_lines : ℕ
  num_samples_along_lines : ℕ
  center_coordinate_pixel : ℚ × ℚ
  curvilinear_image_size : ℕ
  deriving DecidableEq

/-- Spec §3 invariant for a valid configuration: radius_end > radius_start ≥ 0,
angle_max > angle_min, positive image size. -/
def validConfig (cfg : ScanConversionConfig) : Prop :=
  0 ≤ cfg.radius_start_pixels ∧ cfg.radius_start_pixels < cfg.radius_end_pixels ∧
    cfg.angle_min_degrees < cfg.angle_max_degrees ∧ 0 < cfg.curvilinear_image_size

instance (cfg : ScanConversionConfig) : Decidable (validConfig cfg) := by
  unfold validConfig; infer_instance

/-- Embedding of `np.linspace a b n`: `n` evenly spaced values from `a` to `b`
inclusive (`[a]` when `n = 1`). -/
noncomputable def linspace (a b : ℝ) (n : ℕ) (i : Fin n) : ℝ :=
  if n ≤ 1 then a else a + (i : ℝ) * (b - a) / ((n : ℝ) - 1)

/-- Embedding of `np.deg2rad`. -/
noncomputable def deg2rad (d : ℚ) : ℝ := (d : ℝ) * Real.pi / 180

/-- Radial sample positions: `np.linspace(radius_start_px, radius_end_px, num_lines)`
(source line 80); after `np.meshgrid` the radius varies along axis 0. -/
noncomputable def r_grid (cfg : ScanConversionConfig) (i : Fin cfg.num_lines) : ℝ :=
  linspace (cfg.radius_start_pixels : ℝ) (cfg.radius_end_pixels : ℝ) cfg.num_lines i

/-- Angular sample positions: `np.linspace(initial_radius, final_radius, num_samples_along_lines)`
with the bounds converted by `np.deg2rad` (source lines 74-79); after
`np.meshgrid` the angle varies along axis 1. -/
noncomputable def theta_grid (cfg : ScanConversionConfig)
    (j : Fin cfg.num_samples_along_lines) : ℝ :=
  linspace (deg2rad cfg.angle_min_degrees) (deg2rad cfg.angle_max_degrees)
    cfg.num_samples_along_lines j

/-- Entry `(i, j)` of the first array returned by `scan_conversion_inverse`:
`x_cart = r * np.cos(theta) + center_coordinate_pixel[0]` (source line 83).
The array shape `(num_lines, num_samples_along_lines)` is carried by the
`Fin` index types. -/
noncomputable def x_cart (cfg : ScanConversionConfig)
    (i : Fin cfg.num_lines) (j : Fin cfg.num_samples_along_lines) : ℝ :=
  r_grid cfg i * Real.cos (theta_grid cfg j) + (cfg.center_coordinate_pixel.1 : ℝ)

/-- Entry `(i, j)` of the second array returned by `scan_conversion_inverse`:
`y_cart = r * np.sin(theta) + center_coordinate_pixel[1]` (source line 84). -/
noncomputable def y_cart (cfg : ScanConversionConfig)
    (i : Fin cfg.num_lines) (j : Fin cfg.num_samples_along_lines) : ℝ :=
  r_grid cfg i * Real.sin (theta_grid cfg j) + (cfg.center_coordinate_pixel.2 : ℝ)

/-- View a `(a, b)`-shaped array (a function on `Fin a × Fin b`) as a list of
rows, to state shape facts about lengths. -/
def matToList {α : Type} {a b : ℕ} (f : Fin a → Fin b → α) : List (List α) :=
  List.ofFn fun i => List.ofFn fun j => f i j

/-- Pixel fetch with `mode='constant'` boundary handling of
`scipy.ndimage.map_coordinates`: out-of-bounds coordinates read the constant
fill value `cval`.  The first index addresses axis 0 (rows), the second axis 1. -/
def getPixC {α : Type} [LinearOrderedField α] {L S : ℕ} (cval : α)
    (img : Fin L → Fin S → α) (y x : ℤ) : α :=
  if hy : 0 ≤ y ∧ y < (L : ℤ) then
    if hx : 0 ≤ x ∧ x < (S : ℤ) then
      img ⟨y.toNat, by omega⟩ ⟨x.toNat, by omega⟩
    else cval
  else cval

/-- Order-1 (bilinear) sample of a 2D array at a fractional coordinate, as
performed by `scipy.ndimage.map_coordinates` with `order=1`: the weighted
average of the four surrounding grid values, missing neighbours replaced by
`cval`. -/
def bilinearSample {α : Type} [LinearOrderedField α] [FloorRing α] {L S : ℕ}
    (cval : α) (img : Fin L → Fin S → α) (xq yq : α) : α :=
  let x0 : ℤ := ⌊xq⌋
  let y0 : ℤ := ⌊yq⌋
  let tx : α := xq - (x0 : α)
  let ty : α := yq - (y0 : α)
  (1 - tx) * (1 - ty) * getPixC cval img x0 y0 +
    (1 - tx) * ty * getPixC cval img x0 (y0 + 1) +
    tx * (1 - ty) * getPixC cval img (x0 + 1) y0 +
    tx * ty * getPixC cval img (x0 + 1) (y0 + 1)

/-- Embedding of `map_coordinates(img, [xc, yc], order=1, mode='constant', cval)`:
the output has the shape of the coordinate arrays, each entry sampling `img`
at the fractional position `(xc[i,j], yc[i,j])`. -/
def map_coordinates_order1 {α : Type} [LinearOrderedField α] [FloorRing α]
    {L S A B : ℕ} (img : Fin L → Fin S → α) (xc yc : Fin A → Fin B → α)
    (cval : α) : Fin A → Fin B → α :=
  fun i j => bilinearSample cval img (xc i j) (yc i j)

/-- Embedding of the scan-conversion branch of `preprocess_input`
(source lines 163-169).  The received frame is the `frame` argument
(`message.image`, an array whose channel 0 holds the pixels).  The source then
executes

  `image = np.zeros((1, num_lines, num_samples))`
  `image[0, :, :] = map_coordinates(image[0, :, :], [x_cart, y_cart], order=1, mode='constant', cval=0.0)`

i.e. the name `image` is rebound to a fresh zero array before
`map_coordinates` reads it, so the resampling source is that zero array and
`frame` is never read again.  The returned `(num_lines, num_samples)` array is
what the remaining steps (channel repeat, division by 255, permute and nearest
resize, source lines 171-177) are computed from. -/
def preprocess_input {α : Type} [LinearOrderedField α] [FloorRing α]
    {L S : ℕ} (frame : ℕ → ℕ → α) (xc yc : Fin L → Fin S → α) :
    Fin L → Fin S → α :=
  map_coordinates_order1 (fun (_ : Fin L) (_ : Fin S) => (0 : α)) xc yc 0

/-- Abstract model of the `scipy.spatial.Delaunay` object built over `N` planar
points (source line 93).  The fields mirror the attributes the source uses:
`simplices` (3 point indices per triangle), `find_simplex` (simplex index of a
query point, `-1` for points outside the convex hull) and `transform` (per
simplex, a 2x2 matrix `transformX` and an offset vector `transformR` giving
barycentric coordinates as `transformX @ (p - transformR)`).  The two bounds on
`find_simplex` and `nsimplex_pos` are interface guarantees of the library. -/
structure DelaunayModel (N : ℕ) where
  nsimplex : ℕ
  nsimplex_pos : 0 < nsimplex
  simplices : Fin nsimplex → Fin 3 → Fin N
  find_simplex : ℚ × ℚ → ℤ
  find_simplex_ge : ∀ p, -1 ≤ find_simplex p
  find_simplex_lt : ∀ p, find_simplex p < (nsimplex : ℤ)
  transformX : Fin nsimplex → Fin 2 → Fin 2 → ℚ
  transformR : Fin nsimplex → Fin 2 → ℚ

/-- Row selection `triangulation.simplices[s]` under numpy indexing: a
negative index `s` (here only `-1`, from `find_simplex` outside the hull)
wraps around to the last row. -/
def npSimplexIndex {N : ℕ} (T : DelaunayModel N) (s : ℤ) : Fin T.nsimplex :=
  if h : 0 ≤ s ∧ s < (T.nsimplex : ℤ) then ⟨s.toNat, by omega⟩
  else ⟨T.nsimplex - 1, Nat.sub_lt T.nsimplex_pos Nat.one_pos⟩

/-- Query point with flattened index `m` of `np.mgrid[0:image_size, 0:image_size]`
after `.flatten()` (source lines 95-96): `grid_x` entry `m / image_size`,
`grid_y` entry `m % image_size`. -/
def gridPoint (n : ℕ) (m : Fin (n * n)) : ℚ × ℚ :=
  ((((m : ℕ) / n : ℕ) : ℚ), (((m : ℕ) % n : ℕ) : ℚ))

/-- First two barycentric coefficients of query point `p` in simplex `s`:
`b = np.einsum('ijk,ik->ij', X, Y)` with `X = transform[simplex, :2]` and
`Y = p - transform[simplex, 2]` (source lines 99-101). -/
def barycentric_b {N : ℕ} (T : DelaunayModel N) (s : Fin T.nsimplex)
    (p : ℚ × ℚ) (k : Fin 2) : ℚ :=
  T.transformX s k 0 * (p.1 - T.transformR s 0) +
    T.transformX s k 1 * (p.2 - T.transformR s 1)

/-- Embedding of `scan_interpolation_weights` (source lines 89-104).  For each
of the `curvilinear_image_size²` flattened query points the first component
holds the three vertex indices `triangulation.simplices[simplices]` (as indices
into the flattened sample array) and the second the three barycentric weights
`np.c_[b, 1 - b.sum(axis=1)]`.  The shapes `(curvilinear_image_size², 3)` are
carried by the `Fin` index types. -/
def scan_interpolation_weights (cfg : ScanConversionConfig)
    (T : DelaunayModel (cfg.num_lines * cfg.num_samples_along_lines)) :
    (Fin (cfg.curvilinear_image_size * cfg.curvilinear_image_size) → Fin 3 → ℕ) ×
      (Fin (cfg.curvilinear_image_size * cfg.curvilinear_image_size) → Fin 3 → ℚ) :=
  ((fun m k =>
      (T.simplices (npSimplexIndex T
        (T.find_simplex (gridPoint cfg.curvilinear_image_size m))) k : Fin _).val),
   (fun m =>
      let s := npSimplexIndex T (T.find_simplex (gridPoint cfg.curvilinear_image_size m))
      let b0 := barycentric_b T s (gridPoint cfg.curvilinear_image_size m) 0
      let b1 := barycentric_b T s (gridPoint cfg.curvilinear_image_size m) 1
      ![b0, b1, 1 - (b0 + b1)]))

/-- Error raised by `np.take(z, vertices)` when a referenced index is out of
range of the flattened data (the only failure the source's `scan_convert` can
raise; it performs no shape validation of its own). -/
inductive ScanConvertError
  | indexErr
  deriving DecidableEq

/-- Embedding of `scan_convert` (source lines 107-123): flatten `linear_data`,
gather the three referenced flattened values per output pixel (`np.take`),
take their weighted sum (`np.einsum('ij,ij->i', ...)`), reshape to
`(curvilinear_image_size, curvilinear_image_size)`.  `linear_data` may be an
array of any 2D shape: the only failure is an out-of-range index inside
`np.take`. -/
def scan_convert (linear_data : List (List ℚ)) (cfg : ScanConversionConfig)
    (vertices : Fin (cfg.curvilinear_image_size * cfg.curvilinear_image_size) → Fin 3 → ℕ)
    (weights : Fin (cfg.curvilinear_image_size * cfg.curvilinear_image_size) → Fin 3 → ℚ) :
    Except ScanConvertError
      (Fin cfg.curvilinear_image_size → Fin cfg.curvilinear_image_size → ℚ) :=
  let z := linear_data.flatten
  if h : ∀ m, ∀ k : Fin 3, vertices m k < z.length then
    Except.ok fun i j =>
      let m : Fin (cfg.curvilinear_image_size * cfg.curvilinear_image_size) :=
        ⟨i.val * cfg.curvilinear_image_size + j.val, by nlinarith [i.isLt, j.isLt]⟩
      ∑ k : Fin 3, z.get ⟨vertices m k, h m k⟩ * weights m k
  else Except.error ScanConvertError.indexErr

/-- Linear-space frame of constant value `V` with the proper
`(num_lines, num_samples_along_lines)` shape. -/
def constLinear (cfg : ScanConversionConfig) (V : ℚ) : List (List ℚ) :=
  List.replicate cfg.num_lines (List.replicate cfg.num_samples_along_lines V)

/-- Square integer image of side `n` (value type ℕ; masks hold only 0 and 1). -/
def Mat (n : ℕ) : Type := Fin n → Fin n → ℕ

instance (n : ℕ) : DecidableEq (Mat n) := by
  unfold Mat; infer_instance

/-- Pixel fetch used by the erosion model: coordinates outside the image read
the neutral value 1, matching `cv2.erode`'s default border handling for
erosion (out-of-image samples never shrink the minimum). -/
def getPixE {n : ℕ} (m : Mat n) (y x : ℤ) : ℕ :=
  if hy : 0 ≤ y ∧ y < (n : ℤ) then
    if hx : 0 ≤ x ∧ x < (n : ℤ) then
      m ⟨y.toNat, by omega⟩ ⟨x.toNat, by omega⟩
    else 1
  else 1

/-- Morphological erosion by a `k × k` all-ones structuring element with the
default centered anchor `(k / 2, k / 2)` and one iteration, as performed by
`cv2.erode(mask, np.ones((k, k)), iterations=1)`: each output pixel is the
minimum of the input over the window. -/
def erode (k : ℕ) {n : ℕ} (m : Mat n) : Mat n :=
  fun i j =>
    (Finset.range k ×ˢ Finset.range k).fold min 1 fun d =>
      getPixE m ((i : ℤ) + (d.1 : ℤ) - ((k / 2 : ℕ) : ℤ))
        ((j : ℤ) + (d.2 : ℤ) - ((k / 2 : ℕ) : ℤ))

/-- Effective structuring element side used by OpenCV: an empty kernel
(`np.ones((0, 0))`, which arises when `int(0.1 * image_size) = 0`) is replaced
by the default `3 × 3` rectangle for `iterations=1`. -/
def effKernel (k : ℕ) : ℕ := if k = 0 then 3 else k

/-- Erosion element side computed by the source (line 157):
`erosion_size = int(0.1 * image_size)` — float multiplication by 0.1 followed
by truncation, modelled exactly over ℚ. -/
def erosionSize (image_size : ℕ) : ℕ :=
  Int.toNat ⌊(0.1 : ℚ) * (image_size : ℚ)⌋

/-- Pre-erosion mask of `curvilinear_mask` (source lines 144-154): start from
zeros, paint the filled elliptical sector (`cv2.ellipse`, value 1), then clear
the filled inner disc (`cv2.circle`, value 0), then force the one-pixel outer
border to zero.  The two rasterized pixel sets are abstract parameters
`sector` and `disc` standing for the OpenCV rasterizers applied to the
configured angles, radii and center. -/
def curvilinear_mask_pre (sector disc : ℕ → ℕ → Bool)
    (cfg : ScanConversionConfig) : Mat cfg.curvilinear_image_size :=
  fun i j =>
    if i.val = 0 ∨ j.val = 0 ∨ i.val = cfg.curvilinear_image_size - 1 ∨
        j.val = cfg.curvilinear_image_size - 1 then 0
    else if disc i.val j.val then 0
    else if sector i.val j.val then 1
    else 0

/-- Embedding of `curvilinear_mask` (source lines 126-160): the pre-erosion
annulus-sector mask eroded once by the square element of side
`int(0.1 * image_size)` (OpenCV substituting its default element when that
side is 0). -/
def curvilinear_mask (sector disc : ℕ → ℕ → Bool)
    (cfg : ScanConversionConfig) : Mat cfg.curvilinear_image_size :=
  erode (effKernel (erosionSize cfg.curvilinear_image_size))
    (curvilinear_mask_pre sector disc cfg)

/-- Variant of `curvilinear_mask` following the spec's words for the erosion
element ("side = round(0.1 × curvilinear_image_size)") instead of the source's
truncation; used only to compare against the source behaviour. -/
def curvilinear_mask_round_side (sector disc : ℕ → ℕ → Bool)
    (cfg : ScanConversionConfig) : Mat cfg.curvilinear_image_size :=
  erode (effKernel (Int.toNat (round ((0.1 : ℚ) * (cfg.curvilinear_image_size : ℚ)))))
    (curvilinear_mask_pre sector disc cfg)

/-- Keys of the scan conversion yaml file that the load phase of `run_client`
reads (through `scan_conversion_inverse`, `scan_interpolation_weights` and
`curvilinear_mask`, source lines 274-288). -/
inductive ConfigKey
  | angle_min_degrees
  | angle_max_degrees
  | radius_start_pixels
  | radius_end_pixels
  | num_lines
  | num_samples_along_lines
  | center_coordinate_pixel
  | curvilinear_image_size
  deriving DecidableEq

/-- Values a loaded yaml mapping can hold: a number, a count, or a 2-element
numeric sequence (the center coordinate). -/
inductive ConfigValue
  | numVal (q : ℚ)
  | countVal (n : ℕ)
  | pairVal (a b : ℚ)
  deriving DecidableEq

/-- Parsed yaml mapping, as produced by `yaml.safe_load`. -/
def ConfigDict : Type := List (ConfigKey × ConfigValue)

/-- Python dict lookup: `config[key]`. -/
def dictGet (d : ConfigDict) (k : ConfigKey) : Option ConfigValue :=
  match d with
  | [] => none
  | (k', v) :: rest => if k' = k then some v else dictGet rest k

/-- Exceptions the load phase can raise: `KeyError` from a missing dict key,
or a type error when a value is used with the wrong shape. -/
inductive PyError
  | keyErr (k : ConfigKey)
  | typeErr
  | qhullErr
  | cvErr
  deriving DecidableEq

/-- Numeric read `config[key]` as used in arithmetic. -/
def getNum (d : ConfigDict) (k : ConfigKey) : Except PyError ℚ :=
  match dictGet d k with
  | none => Except.error (PyError.keyErr k)
  | some (ConfigValue.numVal q) => Except.ok q
  | some (ConfigValue.countVal n) => Except.ok (n : ℚ)
  | some (ConfigValue.pairVal _ _) => Except.error PyError.typeErr

/-- Count read `config[key]` as used for an array extent. -/
def getCount (d : ConfigDict) (k : ConfigKey) : Except PyError ℕ :=
  match dictGet d k with
  | none => Except.error (PyError.keyErr k)
  | some (ConfigValue.countVal n) => Except.ok n
  | some _ => Except.error PyError.typeErr

/-- Two-element read `config[key][0]`, `config[key][1]`. -/
def getPair (d : ConfigDict) (k : ConfigKey) : Except PyError (ℚ × ℚ) :=
  match dictGet d k with
  | none => Except.error (PyError.keyErr k)
  | some (ConfigValue.pairVal a b) => Except.ok (a, b)
  | some _ => Except.error PyError.typeErr

/-- Key-reading phase of the configuration load (source lines 276-288): the
yaml mapping's keys are read, in source access order, while
`scan_conversion_inverse` and then `scan_interpolation_weights` /
`curvilinear_mask` pick up their parameters.  A missing key raises an uncaught
`KeyError`; a value of an unusable shape a type error.  All eight keys are
read before the triangulation is constructed (`run_client` calls
`scan_conversion_inverse` at line 278, before `scan_interpolation_weights` at
line 287).  No range validation of any value appears anywhere in this phase. -/
def parse_scanconversion_config (d : ConfigDict) :
    Except PyError ScanConversionConfig :=
  match getNum d ConfigKey.angle_min_degrees with
  | Except.error e => Except.error e
  | Except.ok amin =>
  match getNum d ConfigKey.angle_max_degrees with
  | Except.error e => Except.error e
  | Except.ok amax =>
  match getNum d ConfigKey.radius_start_pixels with
  | Except.error e => Except.error e
  | Except.ok rstart =>
  match getNum d ConfigKey.radius_end_pixels with
  | Except.error e => Except.error e
  | Except.ok rend =>
  match getCount d ConfigKey.num_samples_along_lines with
  | Except.error e => Except.error e
  | Except.ok nsamples =>
  match getCount d ConfigKey.num_lines with
  | Except.error e => Except.error e
  | Except.ok nlines =>
  match getPair d ConfigKey.center_coordinate_pixel with
  | Except.error e => Except.error e
  | Except.ok center =>
  match getCount d ConfigKey.curvilinear_image_size with
  | Except.error e => Except.error e
  | Except.ok isize =>
    Except.ok
      { angle_min_degrees := amin
        angle_max_degrees := amax
        radius_start_pixels := rstart
        radius_end_pixels := rend
        num_lines := nlines
        num_samples_along_lines := nsamples
        center_coordinate_pixel := center
        curvilinear_image_size := isize }

/-- Yaml mapping holding exactly the fields of a configuration record, in the
file's natural key order. -/
def toDict (cfg : ScanConversionConfig) : ConfigDict :=
  [(ConfigKey.angle_min_degrees, ConfigValue.numVal cfg.angle_min_degrees),
   (ConfigKey.angle_max_degrees, ConfigValue.numVal cfg.angle_max_degrees),
   (ConfigKey.radius_start_pixels, ConfigValue.numVal cfg.radius_start_pixels),
   (ConfigKey.radius_end_pixels, ConfigValue.numVal cfg.radius_end_pixels),
   (ConfigKey.num_lines, ConfigValue.countVal cfg.num_lines),
   (ConfigKey.num_samples_along_lines, ConfigValue.countVal cfg.num_samples_along_lines),
   (ConfigKey.center_coordinate_pixel,
     ConfigValue.pairVal cfg.center_coordinate_pixel.1 cfg.center_coordinate_pixel.2),
   (ConfigKey.curvilinear_image_size, ConfigValue.countVal cfg.curvilinear_image_size)]

/-- Embedding of the full configuration-loading phase of `run_client`
(source lines 274-288): read the yaml keys (`parse_scanconversion_config`),
then construct the Delaunay triangulation of the sample points inside
`scan_interpolation_weights` (line 93), then rasterize the validity mask's
sector and disc via OpenCV inside `curvilinear_mask` (lines 144-146).  The two
external constructions can themselves fail — scipy raises `QhullError` when
the sample points are degenerate (fewer than 3 distinct points, or all
collinear, e.g. when `radius_start_pixels = radius_end_pixels` collapses a
2 × 2 grid to 2 distinct points), and the OpenCV drawing calls reject invalid
image or shape arguments — so they enter the model as the abstract fallible
parameters `delaunay` and `rasterize`.  The pipeline itself adds no
validation: every failure on this path is a missing/ill-shaped key or an
uncaught error from one of the external libraries. -/
def load_scanconversion_config
    (delaunay : (cfg : ScanConversionConfig) →
      Except PyError (DelaunayModel (cfg.num_lines * cfg.num_samples_along_lines)))
    (rasterize : ScanConversionConfig →
      Except PyError ((ℕ → ℕ → Bool) × (ℕ → ℕ → Bool)))
    (d : ConfigDict) : Except PyError ScanConversionConfig :=
  match parse_scanconversion_config d with
  | Except.error e => Except.error e
  | Except.ok cfg =>
  match delaunay cfg with
  | Except.error e => Except.error e
  | Except.ok _ =>
  match rasterize cfg with
  | Except.error e => Except.error e
  | Except.ok _ => Except.ok cfg

/-- Valid configuration used to instantiate theorems: a 60° sector,
radii 1 to 3, a 2 × 2 linear grid and a 5 × 5 curvilinear image. -/
def cfgW : ScanConversionConfig :=
  { angle_min_degrees := -30
    angle_max_degrees := 30
    radius_start_pixels := 1
    radius_end_pixels := 3
    num_lines := 2
    num_samples_along_lines := 2
    center_coordinate_pixel := (5, 5)
    curvilinear_image_size := 5 }

/-- Valid configuration with a 2 × 2 curvilinear image, for small concrete
evaluations of the weight builder and forward converter. -/
def cfg7 : ScanConversionConfig :=
  { angle_min_degrees := -30
    angle_max_degrees := 30
    radius_start_pixels := 1
    radius_end_pixels := 3
    num_lines := 2
    num_samples_along_lines := 2
    center_coordinate_pixel := (5, 5)
    curvilinear_image_size := 2 }

/-- Valid configuration with a 16 × 16 curvilinear image:
`int(0.1 * 16) = 1` while `round(0.1 * 16) = 2`, separating the source's
erosion element side from the spec's formula. -/
def cfg16 : ScanConversionConfig :=
  { angle_min_degrees := -30
    angle_max_degrees := 30
    radius_start_pixels := 1
    radius_end_pixels := 3
    num_lines := 2
    num_samples_along_lines := 2
    center_coordinate_pixel := (8, 8)
    curvilinear_image_size := 16 }

/-- Configuration with out-of-range geometry
(`radius_end_pixels ≤ radius_start_pixels`) and every key present. -/
def cfgBad : ScanConversionConfig :=
  { angle_min_degrees := -30
    angle_max_degrees := 30
    radius_start_pixels := 10
    radius_end_pixels := 5
    num_lines := 2
    num_samples_along_lines := 2
    center_coordinate_pixel := (8, 8)
    curvilinear_image_size := 16 }

/-- Degenerate rasterizer painting every pixel (stands for a sector covering
the whole image). -/
def sectorAll : ℕ → ℕ → Bool := fun _ _ => true

/-- Degenerate rasterizer painting no pixel (stands for an inner disc of
radius 0). -/
def discNone : ℕ → ℕ → Bool := fun _ _ => false

/-- Concrete triangulation interface instance over 4 sample points: one
simplex on the first three points, every query located inside it. -/
def T0 : DelaunayModel 4 :=
  { nsimplex := 1
    nsimplex_pos := Nat.one_pos
    simplices := fun _ k => Fin.castLE (by omega) k
    find_simplex := fun _ => 0
    find_simplex_ge := fun _ => by norm_num
    find_simplex_lt := fun _ => by norm_num
    transformX := fun _ _ _ => 0
    transformR := fun _ _ => 0 }

/-- Concrete triangulation oracle for instantiating the load phase: succeeds
with T0 whenever the sample grid has exactly 4 points, and reports the library
failure otherwise.  This matches scipy's behaviour on cfgBad and cfgW, whose
four sample points (two distinct radii, two distinct angles) are distinct and
non-collinear, so `scipy.spatial.Delaunay` succeeds on them. -/
def delaunay4 (cfg : ScanConversionConfig) :
    Except PyError (DelaunayModel (cfg.num_lines * cfg.num_samples_along_lines)) :=
  if h : cfg.num_lines * cfg.num_samples_along_lines = 4 then
    Except.ok (cast (congrArg DelaunayModel h.symm) T0)
  else Except.error PyError.qhullErr

/-- Concrete rasterization oracle for instantiating the load phase: the OpenCV
sector/disc drawing succeeds, as it does for any positive image size with
non-negative integer radii and center (true of cfgBad and cfgW). -/
def rasterizeOk (cfg : ScanConversionConfig) :
    Except PyError ((ℕ → ℕ → Bool) × (ℕ → ℕ → Bool)) :=
  Except.ok (sectorAll, discNone)

theorem matToList_length {α : Type} {a b : ℕ} (f : Fin a → Fin b → α) :
    (matToList f).length = a := by
  simp [matToList]

theorem matToList_row_length {α : Type} {a b : ℕ} (f : Fin a → Fin b → α) :
    ∀ r ∈ matToList f, r.length = b := by
  intro r hr
  simp only [matToList, List.mem_ofFn] at hr
  obtain ⟨i, hi⟩ := hr
  simp [← hi]

theorem linspace_mem (a b : ℝ) (hab : a ≤ b) (n : ℕ) (i : Fin n) :
    a ≤ linspace a b n i ∧ linspace a b n i ≤ b := by
  unfold linspace
  by_cases h : n ≤ 1
  · simp [h, hab]
  · simp only [h, if_false]
    push_neg at h
    have hn1 : (1 : ℝ) ≤ (n : ℝ) - 1 := by
      have : (2 : ℕ) ≤ n := h
      have : (2 : ℝ) ≤ (n : ℝ) := by exact_mod_cast this
      linarith
    have hpos : (0 : ℝ) < (n : ℝ) - 1 := by linarith
    have hi : (i : ℝ) ≤ (n : ℝ) - 1 := by
      have h1 : (i : ℕ) + 1 ≤ n := i.isLt
      have h2 : ((i : ℕ) : ℝ) + 1 ≤ (n : ℝ) := by exact_mod_cast h1
      linarith
    have hba : (0 : ℝ) ≤ b - a := by linarith
    constructor
    · have : 0 ≤ (i : ℝ) * (b - a) / ((n : ℝ) - 1) := by positivity
      linarith
    · have hmul : (i : ℝ) * (b - a) ≤ ((n : ℝ) - 1) * (b - a) :=
        mul_le_mul_of_nonneg_right hi hba
      have hdiv : (i : ℝ) * (b - a) / ((n : ℝ) - 1) ≤
          ((n : ℝ) - 1) * (b - a) / ((n : ℝ) - 1) :=
        div_le_div_of_nonneg_right hmul hpos.le
      have hcan : ((n : ℝ) - 1) * (b - a) / ((n : ℝ) - 1) = b - a := by
        field_simp
      rw [hcan] at hdiv
      linarith

theorem getPixC_zero {α : Type} [LinearOrderedField α] {L S : ℕ} (y x : ℤ) :
    getPixC (0 : α) (fun (_ : Fin L) (_ : Fin S) => (0 : α)) y x = 0 := by
  unfold getPixC
  split
  · split <;> rfl
  · rfl

theorem bilinearSample_zero {α : Type} [LinearOrderedField α] [FloorRing α]
    {L S : ℕ} (xq yq : α) :
    bilinearSample (0 : α) (fun (_ : Fin L) (_ : Fin S) => (0 : α)) xq yq = 0 := by
  unfold bilinearSample
  simp only [getPixC_zero]
  ring

theorem constLinear_flatten (cfg : ScanConversionConfig) (V : ℚ) :
    (constLinear cfg V).flatten =
      List.replicate (cfg.num_lines * cfg.num_samples_along_lines) V := by
  unfold constLinear
  induction cfg.num_lines with
  | zero => simp
  | succ L ih =>
    simp only [List.replicate_succ, List.flatten_cons, Nat.succ_mul] at ih ⊢
    rw [ih, Nat.add_comm, List.replicate_add]

theorem erode_le_self {k n : ℕ} (hk : 0 < k) (m : Mat n) (i j : Fin n) :
    erode k m i j ≤ m i j := by
  unfold erode
  have hmem : ((k / 2 : ℕ), (k / 2 : ℕ)) ∈ Finset.range k ×ˢ Finset.range k := by
    have : k / 2 < k := Nat.div_lt_self hk (by omega)
    simp [Finset.mem_product, this]
  have hval : getPixE m ((i : ℤ) + ((k / 2 : ℕ) : ℤ) - ((k / 2 : ℕ) : ℤ))
      ((j : ℤ) + ((k / 2 : ℕ) : ℤ) - ((k / 2 : ℕ) : ℤ)) = m i j := by
    have hyi : (i : ℤ) + ((k / 2 : ℕ) : ℤ) - ((k / 2 : ℕ) : ℤ) = (i : ℤ) := by ring
    have hyj : (j : ℤ) + ((k / 2 : ℕ) : ℤ) - ((k / 2 : ℕ) : ℤ) = (j : ℤ) := by ring
    rw [hyi, hyj]
    unfold getPixE
    have h1 : (0 : ℤ) ≤ (i : ℤ) ∧ (i : ℤ) < (n : ℤ) := by
      constructor
      · exact Int.ofNat_nonneg _
      · exact_mod_cast i.isLt
    have h2 : (0 : ℤ) ≤ (j : ℤ) ∧ (j : ℤ) < (n : ℤ) := by
      constructor
      · exact Int.ofNat_nonneg _
      · exact_mod_cast j.isLt
    rw [dif_pos h1, dif_pos h2]
    congr 1
  exact (Finset.fold_min_le (m i j)).mpr
    (Or.inr ⟨((k / 2 : ℕ), (k / 2 : ℕ)), hmem, le_of_eq hval⟩)

theorem erode_le_one {k n : ℕ} (m : Mat n) (i j : Fin n) : erode k m i j ≤ 1 := by
  unfold erode
  exact (Finset.fold_min_le 1).mpr (Or.inl le_rfl)

theorem effKernel_pos (k : ℕ) : 0 < effKernel k := by
  unfold effKernel
  split <;> omega

theorem getNum_ok_isSome {d : ConfigDict} {k : ConfigKey} {q : ℚ}
    (h : getNum d k = Except.ok q) : (dictGet d k).isSome := by
  unfold getNum at h
  cases hd : dictGet d k with
  | none => rw [hd] at h; exact absurd h (by simp)
  | some v => simp

theorem getCount_ok_isSome {d : ConfigDict} {k : ConfigKey} {n : ℕ}
    (h : getCount d k = Except.ok n) : (dictGet d k).isSome := by
  unfold getCount at h
  cases hd : dictGet d k with
  | none => rw [hd] at h; exact absurd h (by simp)
  | some v => simp

theorem getPair_ok_isSome {d : ConfigDict} {k : ConfigKey} {p : ℚ × ℚ}
    (h : getPair d k = Except.ok p) : (dictGet d k).isSome := by
  unfold getPair at h
  cases hd : dictGet d k with
  | none => rw [hd] at h; exact absurd h (by simp)
  | some v => simp

theorem parse_ok_all_keys {d : ConfigDict}
    (h : (parse_scanconversion_config d).isOk = true) (k : ConfigKey) :
    (dictGet d k).isSome := by
  unfold parse_scanconversion_config at h
  cases h1 : getNum d ConfigKey.angle_min_degrees with
  | error e => rw [h1] at h; simp [Except.bind, Except.isOk, Except.toBool] at h
  | ok amin =>
  rw [h1] at h
  cases h2 : getNum d ConfigKey.angle_max_degrees with
  | error e => rw [h2] at h; simp [Except.bind, Except.isOk, Except.toBool] at h
  | ok amax =>
  rw [h2] at h
  cases h3 : getNum d ConfigKey.radius_start_pixels with
  | error e => rw [h3] at h; simp [Except.bind, Except.isOk, Except.toBool] at h
  | ok rstart =>
  rw [h3] at h
  cases h4 : getNum d ConfigKey.radius_end_pixels with
  | error e => rw [h4] at h; simp [Except.bind, Except.isOk, Except.toBool] at h
  | ok rend =>
  rw [h4] at h
  cases h5 : getCount d ConfigKey.num_samples_along_lines with
  | error e => rw [h5] at h; simp [Except.bind, Except.isOk, Except.toBool] at h
  | ok nsamples =>
  rw [h5] at h
  cases h6 : getCount d ConfigKey.num_lines with
  | error e => rw [h6] at h; simp [Except.bind, Except.isOk, Except.toBool] at h
  | ok nlines =>
  rw [h6] at h
  cases h7 : getPair d ConfigKey.center_coordinate_pixel with
  | error e => rw [h7] at h; simp [Except.bind, Except.isOk, Except.toBool] at h
  | ok center =>
  rw [h7] at h
  cases h8 : getCount d ConfigKey.curvilinear_image_size with
  | error e => rw [h8] at h; simp [Except.bind, Except.isOk, Except.toBool] at h
  | ok isize =>
  cases k with
  | angle_min_degrees => exact getNum_ok_isSome h1
  | angle_max_degrees => exact getNum_ok_isSome h2
  | radius_start_pixels => exact getNum_ok_isSome h3
  | radius_end_pixels => exact getNum_ok_isSome h4
  | num_samples_along_lines => exact getCount_ok_isSome h5
  | num_lines => exact getCount_ok_isSome h6
  | center_coordinate_pixel => exact getPair_ok_isSome h7
  | curvilinear_image_size => exact getCount_ok_isSome h8

theorem load_ok_parse_ok
    {delaunay : (cfg : ScanConversionConfig) →
      Except PyError (DelaunayModel (cfg.num_lines * cfg.num_samples_along_lines))}
    {rasterize : ScanConversionConfig →
      Except PyError ((ℕ → ℕ → Bool) × (ℕ → ℕ → Bool))}
    {d : ConfigDict}
    (h : (load_scanconversion_config delaunay rasterize d).isOk = true) :
    (parse_scanconversion_config d).isOk = true := by
  unfold load_scanconversion_config at h
  cases hp : parse_scanconversion_config d with
  | error e => rw [hp] at h; simp [Except.isOk, Except.toBool] at h
  | ok cfg => rfl

theorem weights_row_sum (cfg : ScanConversionConfig)
    (T : DelaunayModel (cfg.num_lines * cfg.num_samples_along_lines))
    (m : Fin (cfg.curvilinear_image_size * cfg.curvilinear_image_size)) :
    ∑ k : Fin 3, (scan_interpolation_weights cfg T).2 m k = 1 := by
  simp [scan_interpolation_weights, Fin.sum_univ_three]

theorem scan_convert_const (cfg : ScanConversionConfig)
    (T : DelaunayModel (cfg.num_lines * cfg.num_samples_along_lines)) (V : ℚ) :
    ∃ out,
      scan_convert (constLinear cfg V) cfg (scan_interpolation_weights cfg T).1
          (scan_interpolation_weights cfg T).2 = Except.ok out ∧
        ∀ i j, out i j = V := by
  have hlen : (constLinear cfg V).flatten.length =
      cfg.num_lines * cfg.num_samples_along_lines := by
    rw [constLinear_flatten]; exact List.length_replicate _ _
  have hcond : ∀ m, ∀ k : Fin 3,
      (scan_interpolation_weights cfg T).1 m k < (constLinear cfg V).flatten.length := by
    intro m k
    rw [hlen]
    exact (T.simplices (npSimplexIndex T
      (T.find_simplex (gridPoint cfg.curvilinear_image_size m))) k).isLt
  have hget : ∀ idx : Fin (constLinear cfg V).flatten.length,
      (constLinear cfg V).flatten.get idx = V := by
    intro idx
    have hmem : (constLinear cfg V).flatten.get idx ∈ (constLinear cfg V).flatten :=
      List.get_mem _ idx.1 idx.2
    generalize (constLinear cfg V).flatten.get idx = v at hmem ⊢
    rw [constLinear_flatten] at hmem
    exact List.eq_of_mem_replicate hmem
  refine ⟨_, dif_pos hcond, ?_⟩
  intro i j
  simp only [hget]
  rw [← Finset.mul_sum, weights_row_sum]
  ring

/-- C1: the claim says the preprocessing step resamples the received frame's
pixel data at (x_cart, y_cart), making the model input a function of the
frame.  In the source the received frame is discarded: `image` is rebound to
`np.zeros((1, num_lines, num_samples))` before `map_coordinates` reads it
(source lines 168-169), so the model-space array is identically zero and
independent of the received frame — two arbitrary distinct frames give the
same (zero) result. -/
theorem claim1_preprocess_ignores_frame {α : Type} [LinearOrderedField α]
    [FloorRing α] {L S : ℕ} (xc yc : Fin L → Fin S → α)
    (frame frame' : ℕ → ℕ → α) :
    preprocess_input frame xc yc = preprocess_input frame' xc yc ∧
      ∀ i j, preprocess_input frame xc yc i j = 0 := by
  refine ⟨rfl, fun i j => ?_⟩
  unfold preprocess_input map_coordinates_order1
  exact bilinearSample_zero _ _

/-- C2 counterexample: at curvilinear_image_size = 16 the source's erosion
element side is `int(0.1 * 16) = 1` (a 1 × 1 element, the identity), while the
claim's `round(0.1 * 16) = 2` erodes pixel (1, 1) away; the produced masks
differ at that pixel, so the erosion element side is not `round(0.1 * size)`. -/
theorem claim2_counterexample :
    curvilinear_mask sectorAll discNone cfg16
        ⟨1, by norm_num [cfg16]⟩ ⟨1, by norm_num [cfg16]⟩ = 1 ∧
      curvilinear_mask_round_side sectorAll discNone cfg16
        ⟨1, by norm_num [cfg16]⟩ ⟨1, by norm_num [cfg16]⟩ = 0 := by
  constructor
  · have h : effKernel (erosionSize cfg16.curvilinear_image_size) = 1 := by
      norm_num [erosionSize, effKernel, cfg16]
    unfold curvilinear_mask
    rw [h]
    decide
  · have h : effKernel
        (Int.toNat (round ((0.1 : ℚ) * (cfg16.curvilinear_image_size : ℚ)))) = 2 := by
      norm_num [round_eq, cfg16]
      rfl
    unfold curvilinear_mask_round_side
    rw [h]
    decide

/-- C2 (amended): for every configuration, build_validity_mask erodes the
bordered annulus-sector mask exactly once with a square structuring element
whose side is the truncation `int(0.1 × curvilinear_image_size)` — equal to
`curvilinear_image_size / 10` (integer division), not `round(0.1 × size)` —
with the library substituting its default 3 × 3 element when that side is 0. -/
theorem claim2_amended :
    (∀ (sector disc : ℕ → ℕ → Bool) (cfg : ScanConversionConfig),
        curvilinear_mask sector disc cfg =
          erode (effKernel (Int.toNat ⌊(0.1 : ℚ) * (cfg.curvilinear_image_size : ℚ)⌋))
            (curvilinear_mask_pre sector disc cfg)) ∧
    ∀ n : ℕ, erosionSize n = n / 10 := by
  constructor
  · intro sector disc cfg
    rfl
  · intro n
    unfold erosionSize
    rw [show (0.1 : ℚ) * (n : ℚ) = (n : ℚ) / ((10 : ℕ) : ℚ) by push_cast; ring]
    rw [Int.floor_toNat, Nat.floor_div_nat, Nat.floor_natCast]

/-- C3 counterexample: the configuration cfgBad has every required key present
but radius_end_pixels = 5 ≤ 10 = radius_start_pixels — out-of-range geometry
in the claim's sense; its four sample points (radii 10 and 5 at angles ±30°)
are distinct and non-collinear and its OpenCV drawing arguments valid, so both
external library calls succeed (reflected here by the oracles delaunay4 and
rasterizeOk), loading returns the configuration with no error whatsoever, and
the pipeline starts — no ConfigurationError is raised. -/
theorem claim3_counterexample :
    load_scanconversion_config delaunay4 rasterizeOk (toDict cfgBad) =
        Except.ok cfgBad ∧
      cfgBad.radius_end_pixels ≤ cfgBad.radius_start_pixels ∧
      0 < cfgBad.curvilinear_image_size :=
  ⟨rfl, by decide, by decide⟩

/-- C3 (amended): a configuration with a missing required key does fail at
load time, before any frame is processed (the uncaught KeyError from the first
dict access aborts the load whatever the external libraries would do); but the
pipeline performs no geometry-range validation of its own: loading consists
only of the key reads and the external triangulation and rasterization calls,
so any well-typed configuration on which those library calls succeed —
including out-of-range geometry such as cfgBad's
radius_end_pixels ≤ radius_start_pixels — loads successfully and the pipeline
starts.  Degenerate geometry (e.g. radius_start_pixels = radius_end_pixels
collapsing a 2 × 2 grid to 2 distinct points) aborts the load only through the
triangulation library's own QhullError, never a ConfigurationError. -/
theorem claim3_amended :
    (∀ (delaunay : (cfg : ScanConversionConfig) →
          Except PyError (DelaunayModel (cfg.num_lines * cfg.num_samples_along_lines)))
        (rasterize : ScanConversionConfig →
          Except PyError ((ℕ → ℕ → Bool) × (ℕ → ℕ → Bool)))
        (d : ConfigDict) (k : ConfigKey),
        dictGet d k = none →
        (load_scanconversion_config delaunay rasterize d).isOk = false) ∧
    ∀ (delaunay : (cfg : ScanConversionConfig) →
          Except PyError (DelaunayModel (cfg.num_lines * cfg.num_samples_along_lines)))
        (rasterize : ScanConversionConfig →
          Except PyError ((ℕ → ℕ → Bool) × (ℕ → ℕ → Bool)))
        (cfg : ScanConversionConfig),
      (delaunay cfg).isOk = true → (rasterize cfg).isOk = true →
      load_scanconversion_config delaunay rasterize (toDict cfg) =
        Except.ok cfg := by
  constructor
  · intro delaunay rasterize d k hk
    by_contra hok
    have htrue : (load_scanconversion_config delaunay rasterize d).isOk = true := by
      revert hok
      cases (load_scanconversion_config delaunay rasterize d).isOk <;> simp
    have hparse : (parse_scanconversion_config d).isOk = true :=
      load_ok_parse_ok htrue
    have hsome := parse_ok_all_keys hparse k
    rw [hk] at hsome
    simp at hsome
  · intro delaunay rasterize cfg hdel hras
    show (match delaunay cfg with
      | Except.error e => Except.error e
      | Except.ok _ =>
        match rasterize cfg with
        | Except.error e => Except.error e
        | Except.ok _ => Except.ok cfg) = Except.ok cfg
    cases hD : delaunay cfg with
    | error e => rw [hD] at hdel; simp [Except.isOk, Except.toBool] at hdel
    | ok T =>
      cases hR : rasterize cfg with
      | error e => rw [hR] at hras; simp [Except.isOk, Except.toBool] at hras
      | ok sd => rfl

/-- Witness for C3 (amended), under the concrete oracles: the empty mapping
(missing every key) fails to load, and the valid record cfgW — on which both
library calls succeed — loads back unchanged. -/
theorem claim3_amended_witness :
    (load_scanconversion_config delaunay4 rasterizeOk ([] : ConfigDict)).isOk =
        false ∧
      load_scanconversion_config delaunay4 rasterizeOk (toDict cfgW) =
        Except.ok cfgW :=
  ⟨claim3_amended.1 delaunay4 rasterizeOk [] ConfigKey.radius_end_pixels rfl,
   claim3_amended.2 delaunay4 rasterizeOk cfgW (by decide) rfl⟩

/-- C4: for every valid configuration the sample grid arrays x_cart and
y_cart have shape (num_lines, num_samples_along_lines) and every coordinate
lies within [center − radius_end_pixels, center + radius_end_pixels] in its
axis. -/
theorem claim4_sample_grid_shape_and_bounds (cfg : ScanConversionConfig)
    (h : validConfig cfg) :
    ((matToList (x_cart cfg)).length = cfg.num_lines ∧
      (∀ r ∈ matToList (x_cart cfg), r.length = cfg.num_samples_along_lines) ∧
      (matToList (y_cart cfg)).length = cfg.num_lines ∧
      (∀ r ∈ matToList (y_cart cfg), r.length = cfg.num_samples_along_lines)) ∧
    ∀ (i : Fin cfg.num_lines) (j : Fin cfg.num_samples_along_lines),
      |x_cart cfg i j - (cfg.center_coordinate_pixel.1 : ℝ)| ≤
          (cfg.radius_end_pixels : ℝ) ∧
        |y_cart cfg i j - (cfg.center_coordinate_pixel.2 : ℝ)| ≤
          (cfg.radius_end_pixels : ℝ) := by
  obtain ⟨h0, hlt, -, -⟩ := h
  refine ⟨⟨matToList_length _, matToList_row_length _, matToList_length _,
    matToList_row_length _⟩, ?_⟩
  intro i j
  have hab : (cfg.radius_start_pixels : ℝ) ≤ (cfg.radius_end_pixels : ℝ) := by
    exact_mod_cast hlt.le
  have hr : (cfg.radius_start_pixels : ℝ) ≤ r_grid cfg i ∧
      r_grid cfg i ≤ (cfg.radius_end_pixels : ℝ) := by
    unfold r_grid
    exact linspace_mem _ _ hab _ i
  have hr0 : (0 : ℝ) ≤ r_grid cfg i := by
    have hs : (0 : ℝ) ≤ (cfg.radius_start_pixels : ℝ) := by exact_mod_cast h0
    linarith [hr.1]
  have habs : |r_grid cfg i| = r_grid cfg i := abs_of_nonneg hr0
  constructor
  · have hdiff : x_cart cfg i j - (cfg.center_coordinate_pixel.1 : ℝ) =
        r_grid cfg i * Real.cos (theta_grid cfg j) := by
      unfold x_cart; ring
    rw [hdiff, abs_mul, habs]
    calc r_grid cfg i * |Real.cos (theta_grid cfg j)| ≤ r_grid cfg i * 1 :=
          mul_le_mul_of_nonneg_left (Real.abs_cos_le_one _) hr0
    _ = r_grid cfg i := mul_one _
    _ ≤ (cfg.radius_end_pixels : ℝ) := hr.2
  · have hdiff : y_cart cfg i j - (cfg.center_coordinate_pixel.2 : ℝ) =
        r_grid cfg i * Real.sin (theta_grid cfg j) := by
      unfold y_cart; ring
    rw [hdiff, abs_mul, habs]
    calc r_grid cfg i * |Real.sin (theta_grid cfg j)| ≤ r_grid cfg i * 1 :=
          mul_le_mul_of_nonneg_left (Real.abs_sin_le_one _) hr0
    _ = r_grid cfg i := mul_one _
    _ ≤ (cfg.radius_end_pixels : ℝ) := hr.2

/-- Witness for C4 at the valid configuration cfgW. -/
theorem claim4_witness :
    validConfig cfgW ∧
      (((matToList (x_cart cfgW)).length = cfgW.num_lines ∧
        (∀ r ∈ matToList (x_cart cfgW), r.length = cfgW.num_samples_along_lines) ∧
        (matToList (y_cart cfgW)).length = cfgW.num_lines ∧
        (∀ r ∈ matToList (y_cart cfgW), r.length = cfgW.num_samples_along_lines)) ∧
      ∀ (i : Fin cfgW.num_lines) (j : Fin cfgW.num_samples_along_lines),
        |x_cart cfgW i j - (cfgW.center_coordinate_pixel.1 : ℝ)| ≤
            (cfgW.radius_end_pixels : ℝ) ∧
          |y_cart cfgW i j - (cfgW.center_coordinate_pixel.2 : ℝ)| ≤
            (cfgW.radius_end_pixels : ℝ)) :=
  ⟨by decide, claim4_sample_grid_shape_and_bounds cfgW (by decide)⟩

/-- C5: for every configuration and triangulation the weight builder's
vertices and weights arrays have shape (curvilinear_image_size², 3), and
for every in-hull output pixel (find_simplex ≥ 0) the three barycentric
coefficients sum to exactly 1 and the third equals 1 minus the sum of the
first two. -/
theorem claim5_weights_shape_and_barycentric (cfg : ScanConversionConfig)
    (T : DelaunayModel (cfg.num_lines * cfg.num_samples_along_lines)) :
    ((matToList (scan_interpolation_weights cfg T).1).length =
        cfg.curvilinear_image_size ^ 2 ∧
      (∀ r ∈ matToList (scan_interpolation_weights cfg T).1, r.length = 3) ∧
      (matToList (scan_interpolation_weights cfg T).2).length =
        cfg.curvilinear_image_size ^ 2 ∧
      (∀ r ∈ matToList (scan_interpolation_weights cfg T).2, r.length = 3)) ∧
    ∀ m, 0 ≤ T.find_simplex (gridPoint cfg.curvilinear_image_size m) →
      (∑ k : Fin 3, (scan_interpolation_weights cfg T).2 m k) = 1 ∧
      (scan_interpolation_weights cfg T).2 m 2 =
        1 - ((scan_interpolation_weights cfg T).2 m 0 +
          (scan_interpolation_weights cfg T).2 m 1) := by
  refine ⟨⟨?_, matToList_row_length _, ?_, matToList_row_length _⟩, ?_⟩
  · rw [matToList_length, sq]
  · rw [matToList_length, sq]
  · intro m _
    exact ⟨weights_row_sum cfg T m, rfl⟩

/-- Witness for C5 at cfg7 with the concrete triangulation T0 and the first
(in-hull) output pixel. -/
theorem claim5_witness :
    (0 : ℤ) ≤ T0.find_simplex
        (gridPoint cfg7.curvilinear_image_size ⟨0, by norm_num [cfg7]⟩) ∧
      ((∑ k : Fin 3,
          (scan_interpolation_weights cfg7 T0).2 ⟨0, by norm_num [cfg7]⟩ k) = 1 ∧
        (scan_interpolation_weights cfg7 T0).2 ⟨0, by norm_num [cfg7]⟩ 2 =
          1 - ((scan_interpolation_weights cfg7 T0).2 ⟨0, by norm_num [cfg7]⟩ 0 +
            (scan_interpolation_weights cfg7 T0).2 ⟨0, by norm_num [cfg7]⟩ 1)) :=
  ⟨by decide, (claim5_weights_shape_and_barycentric cfg7 T0).2
    ⟨0, by norm_num [cfg7]⟩ (by decide)⟩

/-- C6: for every configuration (and any rasterized sector/disc) the validity
mask has shape (curvilinear_image_size, curvilinear_image_size), every entry
is 0 or 1, and no 1-valued pixel appears on the outermost border. -/
theorem claim6_mask_shape_values_border (sector disc : ℕ → ℕ → Bool)
    (cfg : ScanConversionConfig) :
    ((matToList (curvilinear_mask sector disc cfg)).length =
        cfg.curvilinear_image_size ∧
      ∀ r ∈ matToList (curvilinear_mask sector disc cfg),
        r.length = cfg.curvilinear_image_size) ∧
    (∀ i j, curvilinear_mask sector disc cfg i j = 0 ∨
        curvilinear_mask sector disc cfg i j = 1) ∧
    ∀ i j, (i.val = 0 ∨ j.val = 0 ∨ i.val = cfg.curvilinear_image_size - 1 ∨
        j.val = cfg.curvilinear_image_size - 1) →
      curvilinear_mask sector disc cfg i j = 0 := by
  refine ⟨⟨matToList_length _, matToList_row_length _⟩, ?_, ?_⟩
  · intro i j
    have h1 : curvilinear_mask sector disc cfg i j ≤ 1 :=
      erode_le_one (curvilinear_mask_pre sector disc cfg) i j
    omega
  · intro i j hborder
    have h1 : curvilinear_mask sector disc cfg i j ≤
        curvilinear_mask_pre sector disc cfg i j :=
      erode_le_self (effKernel_pos _) (curvilinear_mask_pre sector disc cfg) i j
    have hpre : curvilinear_mask_pre sector disc cfg i j = 0 := by
      unfold curvilinear_mask_pre
      rw [if_pos hborder]
    omega

/-- Witness for C6: the border pixel (0, 3) of the cfgW mask is 0. -/
theorem claim6_witness :
    curvilinear_mask sectorAll discNone cfgW
      ⟨0, by norm_num [cfgW]⟩ ⟨3, by norm_num [cfgW]⟩ = 0 :=
  (claim6_mask_shape_values_border sectorAll discNone cfgW).2.2 _ _ (Or.inl rfl)

/-- C7 counterexample: linear_data `[[1, 2, 3, 4]]` has shape (1, 4), not the
(2, 2) grid shape the weights were built against, yet scan_convert silently
produces an output (the flattened data has enough elements), raising no
ShapeMismatchError. -/
theorem claim7_counterexample :
    ([[1, 2, 3, 4]] : List (List ℚ)).length ≠ cfg7.num_lines ∧
      (scan_convert [[1, 2, 3, 4]] cfg7 (scan_interpolation_weights cfg7 T0).1
        (scan_interpolation_weights cfg7 T0).2).isOk = true :=
  ⟨by decide, by decide⟩

/-- C7 (amended): scan_convert performs no shape validation of linear_data:
the call succeeds exactly when every referenced vertex index is within the
flattened data, so data of a mismatched shape with enough elements is
silently accepted, and a too-short input fails only with the index error
raised by the element gather, not a dedicated ShapeMismatchError. -/
theorem claim7_amended (linear_data : List (List ℚ)) (cfg : ScanConversionConfig)
    (vertices : Fin (cfg.curvilinear_image_size * cfg.curvilinear_image_size) →
      Fin 3 → ℕ)
    (weights : Fin (cfg.curvilinear_image_size * cfg.curvilinear_image_size) →
      Fin 3 → ℚ) :
    (scan_convert linear_data cfg vertices weights).isOk = true ↔
      ∀ m, ∀ k : Fin 3, vertices m k < linear_data.flatten.length := by
  unfold scan_convert
  simp only []
  split
  next h => simpa [Except.isOk, Except.toBool] using h
  next h => simpa [Except.isOk, Except.toBool] using h

/-- C8: for every configuration, triangulation and constant V, forward scan
conversion of the all-constant linear frame succeeds and produces V at every
pixel the validity mask marks 1. -/
theorem claim8_const_in_hull (cfg : ScanConversionConfig)
    (T : DelaunayModel (cfg.num_lines * cfg.num_samples_along_lines)) (V : ℚ)
    (sector disc : ℕ → ℕ → Bool) (i j : Fin cfg.curvilinear_image_size)
    (hmask : curvilinear_mask sector disc cfg i j = 1) :
    ∃ out,
      scan_convert (constLinear cfg V) cfg (scan_interpolation_weights cfg T).1
          (scan_interpolation_weights cfg T).2 = Except.ok out ∧
        out i j = V := by
  obtain ⟨out, hok, hval⟩ := scan_convert_const cfg T V
  exact ⟨out, hok, hval i j⟩

/-- Witness for C8 at cfgW, T0, V = 7, and the in-hull pixel (2, 2). -/
theorem claim8_witness :
    curvilinear_mask sectorAll discNone cfgW
        ⟨2, by norm_num [cfgW]⟩ ⟨2, by norm_num [cfgW]⟩ = 1 ∧
      ∃ out,
        scan_convert (constLinear cfgW 7) cfgW (scan_interpolation_weights cfgW T0).1
            (scan_interpolation_weights cfgW T0).2 = Except.ok out ∧
          out ⟨2, by norm_num [cfgW]⟩ ⟨2, by norm_num [cfgW]⟩ = 7 := by
  have hmask : curvilinear_mask sectorAll discNone cfgW
      ⟨2, by norm_num [cfgW]⟩ ⟨2, by norm_num [cfgW]⟩ = 1 := by
    have h : effKernel (erosionSize cfgW.curvilinear_image_size) = 3 := by
      norm_num [erosionSize, effKernel, cfgW]
    unfold curvilinear_mask
    rw [h]
    decide
  exact ⟨hmask, claim8_const_in_hull cfgW T0 7 sectorAll discNone _ _ hmask⟩

/-- C10: every weight row produced by the builder sums exactly to 1 by
construction — including rows of out-of-hull output pixels — and consequently
scan_convert of an all-constant frame of value V yields V at every output
pixel, inside or outside the convex hull. -/
theorem claim10_const_everywhere (cfg : ScanConversionConfig)
    (T : DelaunayModel (cfg.num_lines * cfg.num_samples_along_lines)) (V : ℚ) :
    (∀ m, ∑ k : Fin 3, (scan_interpolation_weights cfg T).2 m k = 1) ∧
      ∃ out,
        scan_convert (constLinear cfg V) cfg (scan_interpolation_weights cfg T).1
            (scan_interpolation_weights cfg T).2 = Except.ok out ∧
          ∀ i j, out i j = V :=
  ⟨weights_row_sum cfg T, scan_convert_const cfg T V⟩
